import Mathlib

/-!
Shallow embedding of the Carousel frontend pipeline
(`src/frontend/assets/js/api.js`, `gallery.js`, `upload.js`).

JavaScript `Map` objects and plain header/localStorage objects are modelled
as association lists in insertion order (head = oldest binding, keys unique),
matching the iteration-order guarantees the code relies on.  Time is an
explicit `now : Nat` parameter (milliseconds).  The network is modelled by an
explicit trace of per-attempt outcomes.
-/

set_option maxRecDepth 4000

/-- Lookup in a JS `Map` / plain object: first binding whose key matches. -/
def mapGet (k : String) (m : List (String × β)) : Option β :=
  (m.find? (fun p => p.1 == k)).map Prod.snd

/-- JS `Map.set` / property assignment: overwrite in place if the key exists
(keeping its position), otherwise append at the end (newest position). -/
def mapSet (k : String) (v : β) (m : List (String × β)) : List (String × β) :=
  if m.any (fun p => p.1 == k) then
    m.map (fun p => if p.1 == k then (k, v) else p)
  else m ++ [(k, v)]

/-- JS `Map.delete` / `delete obj[k]`: remove the binding for `k` (the first
matching one; keys are unique in a `Map`). -/
def mapDelete (k : String) (m : List (String × β)) : List (String × β) :=
  m.eraseP (fun p => p.1 == k)

/-- Keys of an association list are pairwise distinct (the `Map` invariant). -/
def keysNodup (m : List (String × β)) : Prop :=
  (m.map Prod.fst).Nodup

/-! ## CacheManager (api.js lines 499-553) -/

/-- A stored cache item: `{ value, timestamp, maxAge }` (api.js line 513). -/
structure CacheEntry (α : Type) where
  value : α
  timestamp : Nat
  maxAge : Nat
deriving DecidableEq

/-- The `CacheManager` state: the backing `Map` plus the fixed capacity. -/
structure CacheState (α : Type) where
  entries : List (String × CacheEntry α)
  maxSize : Nat
deriving DecidableEq

/-- Constructor defaults (api.js lines 500-504): empty map, capacity 100. -/
def CacheManager.init (α : Type) : CacheState α :=
  ⟨[], 100⟩

/-- Default `maxAge`: 5 minutes in milliseconds (api.js line 502). -/
def CacheManager.defaultMaxAge : Nat := 5 * 60 * 1000

/-- `CacheManager.set` (api.js lines 506-518): if the map is at capacity,
delete the first (oldest-inserted) key, then store the wrapped value with the
insertion timestamp. -/
def CacheManager.set (now : Nat) (key : String) (value : α) (maxAge : Nat)
    (st : CacheState α) : CacheState α :=
  let m :=
    if st.maxSize ≤ st.entries.length then
      match st.entries.head? with
      | some p => mapDelete p.1 st.entries
      | none => st.entries
    else st.entries
  ⟨mapSet key ⟨value, now, maxAge⟩ m, st.maxSize⟩

/-- `CacheManager.get` (api.js lines 520-531): miss on absent key; an entry
with `now - timestamp > maxAge` is deleted and reported as a miss; otherwise
the stored value is returned and the state is untouched. -/
def CacheManager.get (now : Nat) (key : String) (st : CacheState α) :
    Option α × CacheState α :=
  match mapGet key st.entries with
  | none => (none, st)
  | some item =>
    if item.maxAge < now - item.timestamp then
      (none, ⟨mapDelete key st.entries, st.maxSize⟩)
    else
      (some item.value, st)

/-- `CacheManager.has` (api.js lines 533-535): `this.get(key) !== null`,
including `get`'s eviction side effect. -/
def CacheManager.has (now : Nat) (key : String) (st : CacheState α) :
    Bool × CacheState α :=
  let r := CacheManager.get now key st
  (r.1.isSome, r.2)

/-! ## HttpClient retry loop (api.js lines 43-99) -/

/-- Outcome of one `fetch` attempt: the promise resolves with a response of
some status, rejects with a network error, or rejects with an abort
(timeout expiry of the call's `AbortController`). -/
inductive AttemptOutcome
  | response (status : Nat)
  | netError
  | aborted
deriving DecidableEq

/-- Error value held in `lastError` when `request` throws. -/
inductive ReqError
  | httpError (status : Nat)
  | networkFailure
  | abortError
deriving DecidableEq

/-- Final result of `HttpClient.request`: a returned response or a thrown
error. -/
inductive ReqResult
  | ok (status : Nat)
  | err (e : ReqError)
deriving DecidableEq

/-- Observable record of one `HttpClient.request` run: the result, the total
backoff delay awaited, the statuses on which the response-interceptor chain
ran (in order), and the number of `fetch` attempts issued. -/
structure RunResult where
  result : ReqResult
  totalDelay : Nat
  log : List Nat
  attemptsMade : Nat
deriving DecidableEq

/-- One iteration of the retry loop `for (attempt = 0; attempt <= retryAttempts; ...)`
(api.js lines 66-95), with `fuel = retryAttempts + 1 - attempt` spare
iterations.  On a resolved response the interceptors run (the status is
logged) before the `response.ok` check; a 2xx returns; a thrown `HttpError`
with a 4xx status or an `AbortError` breaks the loop; otherwise, if
`attempt < retryAttempts`, the code awaits `retryDelay * 2^attempt` and
retries. -/
def HttpClient.requestGo (retryDelay : Nat) (trace : Nat → AttemptOutcome)
    (retryAttempts : Nat) : Nat → Nat → ReqError → RunResult
  | 0, _, last => ⟨.err last, 0, [], 0⟩
  | fuel + 1, attempt, _ =>
    match trace attempt with
    | .response s =>
      if 200 ≤ s ∧ s < 300 then
        ⟨.ok s, 0, [s], 1⟩
      else if 400 ≤ s ∧ s < 500 then
        ⟨.err (.httpError s), 0, [s], 1⟩
      else if attempt < retryAttempts then
        let rest := HttpClient.requestGo retryDelay trace retryAttempts fuel
          (attempt + 1) (.httpError s)
        ⟨rest.result, retryDelay * 2 ^ attempt + rest.totalDelay,
          s :: rest.log, rest.attemptsMade + 1⟩
      else
        ⟨.err (.httpError s), 0, [s], 1⟩
    | .netError =>
      if attempt < retryAttempts then
        let rest := HttpClient.requestGo retryDelay trace retryAttempts fuel
          (attempt + 1) .networkFailure
        ⟨rest.result, retryDelay * 2 ^ attempt + rest.totalDelay,
          rest.log, rest.attemptsMade + 1⟩
      else
        ⟨.err .networkFailure, 0, [], 1⟩
    | .aborted => ⟨.err .abortError, 0, [], 1⟩

/-- `HttpClient.request` (api.js lines 43-99) restricted to its retry loop:
runs attempts `0..retryAttempts` against the given trace of fetch outcomes. -/
def HttpClient.request (retryAttempts retryDelay : Nat)
    (trace : Nat → AttemptOutcome) : RunResult :=
  HttpClient.requestGo retryDelay trace retryAttempts (retryAttempts + 1) 0
    .networkFailure

/-- The response-interceptor loop (api.js lines 72-74): each registered
interceptor is applied in registration order to the response. -/
def HttpClient.runResponseInterceptors (ints : List (α → α)) (resp : α) : α :=
  ints.foldl (fun r f => f r) resp

/-! ## HttpClient.post header handling (api.js lines 24-27, 43-48, 107-125) -/

/-- Body slot of a request config. -/
inductive ReqBody
  | jsonBody (payload : String)
  | formDataBody
deriving DecidableEq

/-- The slots of an options object passed to `post`/`request`; `none` means
the property is absent from the object. -/
structure ReqOptions where
  method : Option String
  headers : Option (List (String × String))
  body : Option ReqBody
deriving DecidableEq

/-- `this.defaultHeaders` (api.js lines 24-27) with no constructor override. -/
def HttpClient.defaultHeaders : List (String × String) :=
  [("Content-Type", "application/json")]

/-- Data argument of `HttpClient.post`. -/
inductive PostData
  | formData
  | jsonData (payload : String)
deriving DecidableEq

/-- The config object built by `HttpClient.post` (api.js lines 107-121):
`{ method: 'POST', ...options }`; for `FormData` it executes
`delete config.headers?.['Content-Type']` (a no-op when `config.headers` is
absent) and sets the body; otherwise it JSON-encodes the body. -/
def HttpClient.postConfig (data : Option PostData) (options : ReqOptions) :
    ReqOptions :=
  let config : ReqOptions :=
    ⟨some (options.method.getD "POST"), options.headers, options.body⟩
  match data with
  | none => config
  | some PostData.formData =>
    ⟨config.method, config.headers.map (mapDelete "Content-Type"),
      some ReqBody.formDataBody⟩
  | some (PostData.jsonData p) =>
    ⟨config.method, config.headers, some (ReqBody.jsonBody p)⟩

/-- The headers of the config built inside `HttpClient.request` (api.js lines
44-48): `{ method: 'GET', headers: { ...this.defaultHeaders }, ...options }` —
an options object carrying a `headers` property replaces the defaults
wholesale, otherwise the defaults survive. -/
def HttpClient.requestHeaders (options : ReqOptions) : List (String × String) :=
  match options.headers with
  | none => HttpClient.defaultHeaders
  | some h => h

/-! ## ApiService.logout (api.js lines 205-221, 363-371) -/

/-- The fixed localStorage key of the auth token (api.js lines 206, 210, 214). -/
def ApiService.authTokenKey : String := "carousel-auth-token"

/-- `ApiService.removeAuthToken` (api.js lines 213-215). -/
def ApiService.removeAuthToken (ls : List (String × String)) :
    List (String × String) :=
  mapDelete ApiService.authTokenKey ls

/-- `ApiService.logout` (api.js lines 363-371): `try { await post(...) }
catch (error) { console.error(...) } finally { this.removeAuthToken() }`.
Returns the outcome surfaced to the caller and the localStorage state. -/
def ApiService.logout (netFails : Bool) (ls : List (String × String)) :
    Except String Unit × List (String × String) :=
  let attempt : Except String Unit :=
    if netFails then .error "Network error" else .ok ()
  let handled : Except String Unit :=
    match attempt with
    | .ok _ => .ok ()
    | .error _ => .ok ()
  (handled, ApiService.removeAuthToken ls)

/-! ## GalleryManager.deleteImage (gallery.js lines 372-408) and
ApiService.deleteImage (api.js lines 296-303) -/

/-- An image record as far as deletion consults it (only `id` is read). -/
structure ImageRec where
  id : String
deriving DecidableEq

/-- The gallery's backing list and derived filtered list. -/
structure GalleryState where
  images : List ImageRec
  filteredImages : List ImageRec
deriving DecidableEq

/-- `API_BASE_URL` (main.js line 2 of the global script; equals
`API_CONFIG.baseURL`). -/
def API_BASE_URL : String := "http://localhost:5001"

/-- `API_CONFIG.endpoints.delete` (api.js line 10). -/
def API_CONFIG.endpointsDelete : String := "/api/images"

/-- The absolute URL `ApiService.deleteImage` dispatches (api.js line 298
via `client.delete` and the base-URL resolution of api.js line 56). -/
def ApiService.deleteImageUrl (imageId : String) : String :=
  API_BASE_URL ++ (API_CONFIG.endpointsDelete ++ "/" ++ imageId)

/-- `GalleryManager.deleteImage` (gallery.js lines 372-408): after a
confirmation it issues `fetch(\x7b API_BASE_URL \x7d/api/pins/\x7b id \x7d, { method:
'DELETE' })` directly; on `response.ok` it filters the record out of both
`images` and `filteredImages`, otherwise it leaves the state unchanged.
Returns the new state and the URL requested (if any). -/
def GalleryManager.deleteImage (confirmed respOk : Bool) (st : GalleryState)
    (img : ImageRec) : GalleryState × Option String :=
  if !confirmed then (st, none)
  else
    let url := API_BASE_URL ++ "/api/pins/" ++ img.id
    if respOk then
      (⟨st.images.filter (fun i => i.id ≠ img.id),
        st.filteredImages.filter (fun i => i.id ≠ img.id)⟩, some url)
    else (st, some url)

/-! ## UploadManager (upload.js lines 338-451) -/

/-- Status of an `UploadItem` (upload.js line 152). -/
inductive UploadStatus
  | pending
  | uploading
  | completed
  | error
deriving DecidableEq

/-- An upload-queue item as `startUpload`/`uploadFile` mutate it. -/
structure UploadItem where
  id : Nat
  status : UploadStatus
  progress : Nat
  errorMsg : Option String
deriving DecidableEq

/-- Outcome of the `fetch` to `/api/upload` for one item: a 2xx response, a
non-ok response with its `statusText`, or a transport failure whose message
mentions `fetch` (triggering the demo fallback path). -/
inductive NetOutcome
  | okResp
  | httpFail (statusText : String)
  | fetchUnavailable
deriving DecidableEq

/-- Substring containment on character lists (JS `String.prototype.includes`). -/
def containsSub (pat : List Char) : List Char → Bool
  | [] => pat.isEmpty
  | c :: t => pat.isPrefixOf (c :: t) || containsSub pat t

/-- JS `s.includes(pat)` for a non-empty pattern. -/
def jsIncludes (s pat : String) : Bool :=
  containsSub pat.toList s.toList

/-- `UploadManager.uploadFile` (upload.js lines 376-451): sets the item to
`uploading`; a 2xx response completes it with progress 100; a rejected fetch
whose message mentions `fetch` runs the simulated upload (progress driven to
100, then `completed`); a non-ok response throws `Upload failed: statusText`.
Returns the item as the function body leaves it plus the thrown message. -/
def UploadManager.uploadFile (o : NetOutcome) (it : UploadItem) :
    UploadItem × Option String :=
  let it1 : UploadItem := ⟨it.id, .uploading, it.progress, it.errorMsg⟩
  match o with
  | .okResp => (⟨it1.id, .completed, 100, it1.errorMsg⟩, none)
  | .fetchUnavailable => (⟨it1.id, .completed, 100, it1.errorMsg⟩, none)
  | .httpFail st =>
    let msg := "Upload failed: " ++ st
    if jsIncludes msg "fetch" then (⟨it1.id, .completed, 100, it1.errorMsg⟩, none)
    else (it1, some msg)

/-- The sequential loop of `UploadManager.startUpload` (upload.js lines
344-358): each queued item is awaited in order; a successful `uploadFile`
bumps `completedFiles`, a thrown error bumps `failedFiles` and sets the item
to `error` with the failure message, and the loop continues.  Returns the
processed queue and the `(completedFiles, failedFiles)` counters. -/
def UploadManager.startUpload :
    List (UploadItem × NetOutcome) → List UploadItem × Nat × Nat
  | [] => ([], 0, 0)
  | (it, o) :: rest =>
    let r := UploadManager.uploadFile o it
    let tail := UploadManager.startUpload rest
    match r.2 with
    | none => (r.1 :: tail.1, tail.2.1 + 1, tail.2.2)
    | some m =>
      (⟨r.1.id, .error, r.1.progress, some m⟩ :: tail.1, tail.2.1, tail.2.2 + 1)

/-! ## Association-list lemmas -/

theorem mapGet_of_forall_ne {β : Type} (k : String) (m : List (String × β))
    (h : ∀ p ∈ m, p.1 ≠ k) : mapGet k m = none := by
  unfold mapGet
  rw [List.find?_eq_none.mpr]
  · rfl
  · intro p hp
    simpa using h p hp

theorem find?_map_overwrite {β : Type} (k : String) (v : β) :
    ∀ m : List (String × β), m.any (fun p => p.1 == k) = true →
      (m.map (fun p => if p.1 == k then (k, v) else p)).find?
        (fun p => p.1 == k) = some (k, v) := by
  intro m
  induction m with
  | nil => intro h; simp at h
  | cons p t ih =>
    intro h
    by_cases hpk : (p.1 == k) = true
    · simp only [List.map_cons, hpk, if_pos]
      exact List.find?_cons_of_pos _ (by simp)
    · simp only [List.map_cons, hpk, if_neg, Bool.false_eq_true, not_false_iff]
      rw [List.find?_cons_of_neg _ (by simpa using hpk)]
      apply ih
      simp only [List.any_cons, hpk, Bool.false_or] at h
      exact h

theorem find?_append_new {β : Type} (k : String) (v : β) :
    ∀ m : List (String × β), m.any (fun p => p.1 == k) = false →
      (m ++ [(k, v)]).find? (fun p => p.1 == k) = some (k, v) := by
  intro m
  induction m with
  | nil => intro _; simp [List.find?_cons_of_pos]
  | cons p t ih =>
    intro h
    simp only [List.any_cons, Bool.or_eq_false_iff] at h
    rw [List.cons_append, List.find?_cons_of_neg _ (by simp [h.1])]
    exact ih h.2

theorem mapGet_mapSet_self {β : Type} (k : String) (v : β)
    (m : List (String × β)) : mapGet k (mapSet k v m) = some v := by
  unfold mapGet mapSet
  by_cases h : m.any (fun p => p.1 == k) = true
  · rw [if_pos h, find?_map_overwrite k v m h]
    rfl
  · rw [if_neg h, find?_append_new k v m (Bool.eq_false_iff.mpr h)]
    rfl

theorem mapGet_mapDelete_self {β : Type} (k : String)
    (m : List (String × β)) (hnd : keysNodup m) :
    mapGet k (mapDelete k m) = none := by
  induction m with
  | nil => rfl
  | cons p t ih =>
    unfold keysNodup at hnd
    simp only [List.map_cons, List.nodup_cons] at hnd
    by_cases hpk : (p.1 == k) = true
    · unfold mapDelete
      rw [List.eraseP_cons_of_pos (by simpa using hpk)]
      apply mapGet_of_forall_ne
      intro q hq
      have : q.1 ≠ p.1 := by
        intro hqp
        exact hnd.1 (hqp ▸ List.mem_map_of_mem Prod.fst hq)
      rw [← eq_of_beq hpk]
      exact this
    · unfold mapDelete at ih ⊢
      rw [List.eraseP_cons_of_neg (by simpa using hpk)]
      unfold mapGet
      rw [List.find?_cons_of_neg _ (by simpa using hpk)]
      exact ih hnd.2

theorem mapGet_mapDelete_ne {β : Type} (k k' : String) (hk : k ≠ k')
    (m : List (String × β)) : mapGet k (mapDelete k' m) = mapGet k m := by
  induction m with
  | nil => rfl
  | cons p t ih =>
    by_cases hpk : (p.1 == k') = true
    · unfold mapDelete
      rw [List.eraseP_cons_of_pos (by simpa using hpk)]
      unfold mapGet
      rw [List.find?_cons_of_neg _
        (by simp only [eq_of_beq hpk, beq_iff_eq]; exact fun hh => hk hh.symm)]
    · unfold mapDelete at ih ⊢
      rw [List.eraseP_cons_of_neg (by simpa using hpk)]
      by_cases hq : (p.1 == k) = true
      · unfold mapGet
        rw [List.find?_cons_of_pos _ (by simpa using hq),
          List.find?_cons_of_pos _ (by simpa using hq)]
      · unfold mapGet at ih ⊢
        rw [List.find?_cons_of_neg _ (by simpa using hq),
          List.find?_cons_of_neg _ (by simpa using hq)]
        exact ih

theorem keysNodup_mapDelete {β : Type} (k : String) (m : List (String × β))
    (hnd : keysNodup m) : keysNodup (mapDelete k m) := by
  unfold keysNodup at hnd ⊢
  exact hnd.sublist ((List.eraseP_sublist m).map Prod.fst)

theorem keysNodup_mapSet {β : Type} (k : String) (v : β)
    (m : List (String × β)) (hnd : keysNodup m) : keysNodup (mapSet k v m) := by
  unfold keysNodup at hnd ⊢
  unfold mapSet
  by_cases h : m.any (fun p => p.1 == k) = true
  · rw [if_pos h, List.map_map]
    have : m.map (Prod.fst ∘ fun p => if p.1 == k then (k, v) else p) =
        m.map Prod.fst := by
      apply List.map_congr_left
      intro p _
      by_cases hpk : p.1 = k
      · simp [hpk]
      · simp [hpk]
    rw [this]
    exact hnd
  · rw [if_neg h, List.map_append]
    simp only [List.map_cons, List.map_nil]
    rw [List.nodup_append]
    refine ⟨hnd, List.nodup_singleton k, ?_⟩
    rw [Bool.not_eq_true] at h
    simp only [List.any_eq_false] at h
    intro a ha hk
    simp only [List.mem_singleton] at hk
    obtain ⟨p, hp, rfl⟩ := List.mem_map.mp ha
    exact h p hp (by simp [hk])

theorem keysNodup_cacheSet {α : Type} (now : Nat) (k : String) (v : α)
    (mA : Nat) (st : CacheState α) (hnd : keysNodup st.entries) :
    keysNodup (CacheManager.set now k v mA st).entries := by
  unfold CacheManager.set
  apply keysNodup_mapSet
  split
  · split
    · exact keysNodup_mapDelete _ _ hnd
    · exact hnd
  · exact hnd

theorem mapGet_cacheSet_self {α : Type} (now : Nat) (k : String) (v : α)
    (mA : Nat) (st : CacheState α) :
    mapGet k (CacheManager.set now k v mA st).entries =
      some ⟨v, now, mA⟩ := by
  unfold CacheManager.set
  exact mapGet_mapSet_self k _ _

/-! ## Claim theorems: cache -/

/-- C6: for every key `k` and value `v`, `get k` immediately after
`set k v` returns `v`; once more than `maxAge` has elapsed since the entry's
insertion, `get k` returns a miss (deleting the expired entry), and a
subsequent `has k` on the resulting state is `false`. -/
theorem cache_set_get_roundtrip_and_expiry {α : Type} (st : CacheState α)
    (k : String) (v : α) (mA now later : Nat) (hnd : keysNodup st.entries) :
    (CacheManager.get now k (CacheManager.set now k v mA st)).1 = some v ∧
    (mA < later - now →
      (CacheManager.get later k (CacheManager.set now k v mA st)).1 = none ∧
      (CacheManager.has later k
        (CacheManager.get later k (CacheManager.set now k v mA st)).2).1 =
        false) := by
  have hget : mapGet k (CacheManager.set now k v mA st).entries =
      some ⟨v, now, mA⟩ := mapGet_cacheSet_self now k v mA st
  constructor
  · unfold CacheManager.get
    rw [hget]
    simp
  · intro hlt
    have hsetnd : keysNodup (CacheManager.set now k v mA st).entries :=
      keysNodup_cacheSet now k v mA st hnd
    have hgl : CacheManager.get later k (CacheManager.set now k v mA st) =
        (none, ⟨mapDelete k (CacheManager.set now k v mA st).entries,
          (CacheManager.set now k v mA st).maxSize⟩) := by
      unfold CacheManager.get
      rw [hget]
      simp only [if_pos hlt]
    refine ⟨by rw [hgl], ?_⟩
    rw [hgl]
    simp [CacheManager.has, CacheManager.get,
      mapGet_mapDelete_self k _ hsetnd]

/-- Witness for C6 at a concrete input: an empty cache, key `"k"`, value 7,
`maxAge` 300000 ms, inserted at time 0 and looked up at time 300001. -/
theorem cache_set_get_roundtrip_and_expiry_witness :
    keysNodup (CacheManager.init Nat).entries ∧
    (CacheManager.get 0 "k"
      (CacheManager.set 0 "k" 7 300000 (CacheManager.init Nat))).1 = some 7 ∧
    (300000:Nat) < 300001 - 0 ∧
    (CacheManager.get 300001 "k"
      (CacheManager.set 0 "k" 7 300000 (CacheManager.init Nat))).1 = none ∧
    (CacheManager.has 300001 "k"
      (CacheManager.get 300001 "k"
        (CacheManager.set 0 "k" 7 300000 (CacheManager.init Nat))).2).1 =
      false := by
  have hnd : keysNodup (CacheManager.init Nat).entries := by
    unfold keysNodup CacheManager.init
    simp
  have h := cache_set_get_roundtrip_and_expiry (CacheManager.init Nat)
    "k" 7 300000 0 300001 hnd
  have h2 := h.2 (by decide)
  exact ⟨hnd, h.1, by decide, h2.1, h2.2⟩

/-- C7: inserting into a cache holding exactly `maxSize` entries first evicts
precisely the oldest-inserted (head) entry: the resulting map is obtained by
storing the new entry into the remaining (newer) entries, which are all
retained. -/
theorem cache_set_evicts_oldest {α : Type} (st : CacheState α) (k : String)
    (v : α) (mA now : Nat) (hd : String × CacheEntry α)
    (rest : List (String × CacheEntry α)) (he : st.entries = hd :: rest)
    (hfull : st.entries.length = st.maxSize) :
    (CacheManager.set now k v mA st).entries =
      mapSet k ⟨v, now, mA⟩ rest := by
  unfold CacheManager.set
  rw [he]
  have hle : st.maxSize ≤ (hd :: rest).length := by
    rw [← he, hfull]
  rw [if_pos hle]
  simp only [List.head?_cons]
  unfold mapDelete
  rw [List.eraseP_cons_of_pos (by simp)]

/-- Witness for C7 at a concrete input: a two-entry cache at capacity 2;
inserting key `"c"` evicts exactly the oldest key `"a"`. -/
theorem cache_set_evicts_oldest_witness :
    (⟨[("a", ⟨1, 0, 10⟩), ("b", ⟨2, 0, 10⟩)], 2⟩ :
      CacheState Nat).entries =
      ("a", ⟨1, 0, 10⟩) :: [("b", ⟨2, 0, 10⟩)] ∧
    (⟨[("a", ⟨1, 0, 10⟩), ("b", ⟨2, 0, 10⟩)], 2⟩ :
      CacheState Nat).entries.length =
      (⟨[("a", ⟨1, 0, 10⟩), ("b", ⟨2, 0, 10⟩)], 2⟩ : CacheState Nat).maxSize ∧
    (CacheManager.set 5 "c" 3 20
      (⟨[("a", ⟨1, 0, 10⟩), ("b", ⟨2, 0, 10⟩)], 2⟩ : CacheState Nat)).entries =
      mapSet "c" ⟨3, 5, 20⟩ [("b", ⟨2, 0, 10⟩)] := by
  refine ⟨rfl, rfl, ?_⟩
  exact cache_set_evicts_oldest _ "c" 3 20 5 ("a", ⟨1, 0, 10⟩)
    [("b", ⟨2, 0, 10⟩)] rfl rfl

/-- C9 counterexample: `has` is not free of side effects.  On a cache holding
a single entry inserted at time 0 with `maxAge` 10, calling `has` at time 11
deletes the expired entry: the resulting state differs from the input state,
refuting the claim that `has` never modifies the cache state. -/
theorem cache_has_mutates_on_expired_entry :
    (CacheManager.has 11 "a"
      (⟨[("a", ⟨(1:Nat), 0, 10⟩)], 100⟩ : CacheState Nat)).2 ≠
      (⟨[("a", ⟨(1:Nat), 0, 10⟩)], 100⟩ : CacheState Nat) := by
  decide

/-- C9 (amended): `has key` is an existence check with the same expiry
semantics and the same side effect as `get`: it returns exactly whether `get`
returns a value, its resulting state is exactly `get`'s resulting state, and
it leaves the cache unchanged whenever the key is absent or the entry is
unexpired — but a lookup of an expired entry evicts it (as with `get`). -/
theorem cache_has_same_semantics_as_get {α : Type} (st : CacheState α)
    (now : Nat) (k : String) :
    (CacheManager.has now k st).1 = ((CacheManager.get now k st).1).isSome ∧
    (CacheManager.has now k st).2 = (CacheManager.get now k st).2 ∧
    (mapGet k st.entries = none → (CacheManager.has now k st).2 = st) ∧
    (∀ e : CacheEntry α, mapGet k st.entries = some e →
      now - e.timestamp ≤ e.maxAge → (CacheManager.has now k st).2 = st) := by
  refine ⟨rfl, rfl, ?_, ?_⟩
  · intro h
    unfold CacheManager.has CacheManager.get
    rw [h]
  · intro e he hle
    unfold CacheManager.has CacheManager.get
    rw [he]
    simp only [if_neg (Nat.not_lt.mpr hle)]

/-- Witness for C9's amended theorem at a concrete input: looking up an
absent key at time 5 leaves the cache unchanged. -/
theorem cache_has_same_semantics_as_get_witness :
    mapGet "z" (CacheManager.init Nat).entries = none ∧
    (CacheManager.has 5 "z" (CacheManager.init Nat)).2 =
      CacheManager.init Nat :=
  ⟨rfl, (cache_has_same_semantics_as_get (CacheManager.init Nat) 5 "z").2.2.1
    rfl⟩

/-! ## HttpClient retry-loop lemmas -/

theorem requestGo_retry_5xx (rD : Nat) (trace : Nat → AttemptOutcome)
    (rA fuel attempt : Nat) (last : ReqError) (s : Nat)
    (hs : trace attempt = AttemptOutcome.response s) (h5 : 500 ≤ s)
    (hlt : attempt < rA) :
    HttpClient.requestGo rD trace rA (fuel + 1) attempt last =
      ⟨(HttpClient.requestGo rD trace rA fuel (attempt + 1)
          (.httpError s)).result,
        rD * 2 ^ attempt + (HttpClient.requestGo rD trace rA fuel (attempt + 1)
          (.httpError s)).totalDelay,
        s :: (HttpClient.requestGo rD trace rA fuel (attempt + 1)
          (.httpError s)).log,
        (HttpClient.requestGo rD trace rA fuel (attempt + 1)
          (.httpError s)).attemptsMade + 1⟩ := by
  simp only [HttpClient.requestGo, hs]
  rw [if_neg (by omega), if_neg (by omega), if_pos hlt]

theorem requestGo_success (rD : Nat) (trace : Nat → AttemptOutcome)
    (rA fuel attempt : Nat) (last : ReqError) (s : Nat)
    (hs : trace attempt = AttemptOutcome.response s)
    (hok : 200 ≤ s ∧ s < 300) :
    HttpClient.requestGo rD trace rA (fuel + 1) attempt last =
      ⟨.ok s, 0, [s], 1⟩ := by
  simp only [HttpClient.requestGo, hs]
  rw [if_pos hok]

theorem requestGo_log_delivered (rD : Nat) (trace : Nat → AttemptOutcome)
    (rA : Nat) : ∀ fuel attempt last s,
    s ∈ (HttpClient.requestGo rD trace rA fuel attempt last).log →
    ∃ i, trace i = AttemptOutcome.response s := by
  intro fuel
  induction fuel with
  | zero =>
    intro attempt last s hs
    simp [HttpClient.requestGo] at hs
  | succ n ih =>
    intro attempt last s hs
    cases htr : trace attempt with
    | response s' =>
      simp only [HttpClient.requestGo, htr] at hs
      split at hs
      · obtain rfl := List.mem_singleton.mp hs
        exact ⟨attempt, htr⟩
      · split at hs
        · obtain rfl := List.mem_singleton.mp hs
          exact ⟨attempt, htr⟩
        · split at hs
          · rcases List.mem_cons.mp hs with rfl | hmem
            · exact ⟨attempt, htr⟩
            · exact ih (attempt + 1) _ s hmem
          · obtain rfl := List.mem_singleton.mp hs
            exact ⟨attempt, htr⟩
    | netError =>
      simp only [HttpClient.requestGo, htr] at hs
      split at hs
      · exact ih (attempt + 1) _ s hs
      · simp at hs
    | aborted =>
      simp only [HttpClient.requestGo, htr] at hs
      simp at hs

theorem requestGo_ok_ran (rD : Nat) (trace : Nat → AttemptOutcome)
    (rA : Nat) : ∀ fuel attempt last s,
    (HttpClient.requestGo rD trace rA fuel attempt last).result =
      ReqResult.ok s →
    s ∈ (HttpClient.requestGo rD trace rA fuel attempt last).log := by
  intro fuel
  induction fuel with
  | zero =>
    intro attempt last s h
    simp [HttpClient.requestGo] at h
  | succ n ih =>
    intro attempt last s h
    cases htr : trace attempt with
    | response s' =>
      simp only [HttpClient.requestGo, htr] at h ⊢
      by_cases h1 : 200 ≤ s' ∧ s' < 300
      · rw [if_pos h1] at h ⊢
        have h' : ReqResult.ok s' = ReqResult.ok s := h
        injection h' with hh
        subst hh
        simp
      · by_cases h2 : 400 ≤ s' ∧ s' < 500
        · simp only [if_neg h1, if_pos h2] at h
          simp at h
        · by_cases h3 : attempt < rA
          · simp only [if_neg h1, if_neg h2, if_pos h3] at h ⊢
            exact List.mem_cons_of_mem s' (ih (attempt + 1) _ s h)
          · simp only [if_neg h1, if_neg h2, if_neg h3] at h
            simp at h
    | netError =>
      simp only [HttpClient.requestGo, htr] at h ⊢
      by_cases h3 : attempt < rA
      · simp only [if_pos h3] at h ⊢
        exact ih (attempt + 1) _ s h
      · simp only [if_neg h3] at h
        simp at h
    | aborted =>
      simp only [HttpClient.requestGo, htr] at h
      simp at h

theorem request_first_response_ran (rA rD : Nat)
    (trace : Nat → AttemptOutcome) (s : Nat)
    (h : trace 0 = AttemptOutcome.response s) :
    s ∈ (HttpClient.request rA rD trace).log := by
  simp only [HttpClient.request, HttpClient.requestGo, h]
  split
  · simp
  · split
    · simp
    · split
      · simp
      · simp

/-! ## Claim theorems: HttpClient retry and interceptors -/

/-- C1 counterexample: with `retryAttempts = 3` and a first attempt that is
aborted by the timeout, the request makes exactly one attempt — the timed-out
attempt is NOT followed by another attempt even though the retry budget
(3 retries) is untouched — and the abort error surfaces to the caller. -/
theorem timeout_not_retried_counterexample :
    (HttpClient.request 3 1000 (fun _ => AttemptOutcome.aborted)).attemptsMade
      = 1 ∧
    (HttpClient.request 3 1000 (fun _ => AttemptOutcome.aborted)).result =
      ReqResult.err ReqError.abortError ∧
    (1:Nat) < 3 := by
  decide

/-- C1 (amended): expiry of the call's timeout is terminal, not retryable:
whenever the first attempt's outcome is an abort, `HttpClient.request`
surfaces the abort error immediately — one attempt, no backoff delay, no
interceptor run — for every retry budget and base delay. -/
theorem timeout_abort_is_terminal (rA rD : Nat)
    (trace : Nat → AttemptOutcome) (h : trace 0 = AttemptOutcome.aborted) :
    HttpClient.request rA rD trace =
      ⟨ReqResult.err ReqError.abortError, 0, [], 1⟩ := by
  simp only [HttpClient.request, HttpClient.requestGo, h]

/-- Witness for C1's amended theorem at a concrete input. -/
theorem timeout_abort_is_terminal_witness :
    (fun _ : Nat => AttemptOutcome.aborted) 0 = AttemptOutcome.aborted ∧
    HttpClient.request 3 1000 (fun _ => AttemptOutcome.aborted) =
      ⟨ReqResult.err ReqError.abortError, 0, [], 1⟩ :=
  ⟨rfl, timeout_abort_is_terminal 3 1000 (fun _ => AttemptOutcome.aborted) rfl⟩

/-- C2 counterexample: on a trace whose first delivered response is a 503,
the response-interceptor chain runs on that non-success response (the run's
interceptor log is `[503, 200]`), refuting the claim that interceptors never
run on a response whose HTTP status is non-success. -/
theorem interceptors_ran_on_non_success_counterexample :
    (HttpClient.request 3 1000
      (fun i => if i = 0 then AttemptOutcome.response 503
        else AttemptOutcome.response 200)).log = [503, 200] ∧
    ¬ (∀ s ∈ (HttpClient.request 3 1000
        (fun i => if i = 0 then AttemptOutcome.response 503
          else AttemptOutcome.response 200)).log, 200 ≤ s ∧ s < 300) := by
  decide

/-- C2 (amended): the response interceptors run, in registration order, on
every response the transport delivers — successful or not, since they run
before the `response.ok` check — and never on an attempt whose dispatch
itself fails (network error or abort); when the request returns a successful
response, the interceptors ran on it before it was returned. -/
theorem response_interceptors_semantics (rA rD : Nat)
    (trace : Nat → AttemptOutcome) :
    (∀ s, s ∈ (HttpClient.request rA rD trace).log →
      ∃ i, trace i = AttemptOutcome.response s) ∧
    (∀ s, (HttpClient.request rA rD trace).result = ReqResult.ok s →
      s ∈ (HttpClient.request rA rD trace).log) ∧
    (∀ s, trace 0 = AttemptOutcome.response s →
      s ∈ (HttpClient.request rA rD trace).log) ∧
    (∀ (f g : Nat → Nat) (r : Nat),
      HttpClient.runResponseInterceptors [f, g] r = g (f r)) :=
  ⟨fun s hs => requestGo_log_delivered rD trace rA (rA + 1) 0 .networkFailure
      s hs,
    fun s h => requestGo_ok_ran rD trace rA (rA + 1) 0 .networkFailure s h,
    fun s h => request_first_response_ran rA rD trace s h,
    fun _ _ _ => rfl⟩

/-- Witness for C2's amended theorem at a concrete input: a delivered 503
response triggers the interceptor chain. -/
theorem response_interceptors_semantics_witness :
    (fun i : Nat => if i = 0 then AttemptOutcome.response 503
      else AttemptOutcome.response 200) 0 = AttemptOutcome.response 503 ∧
    503 ∈ (HttpClient.request 3 1000
      (fun i => if i = 0 then AttemptOutcome.response 503
        else AttemptOutcome.response 200)).log :=
  ⟨rfl, (response_interceptors_semantics 3 1000
    (fun i => if i = 0 then AttemptOutcome.response 503
      else AttemptOutcome.response 200)).2.2.1 503 rfl⟩

/-- C5: if `retryAttempts ≥ 2` and the first two attempts fail with HTTP 503
while the third succeeds with 200, the request returns the successful
response and the total backoff delay is at least `base + 2·base`
(exponential, doubling from the base delay). -/
theorem retry_twice_503_then_success (rA rD : Nat)
    (trace : Nat → AttemptOutcome) (h2 : 2 ≤ rA)
    (h0 : trace 0 = AttemptOutcome.response 503)
    (h1 : trace 1 = AttemptOutcome.response 503)
    (htwo : trace 2 = AttemptOutcome.response 200) :
    (HttpClient.request rA rD trace).result = ReqResult.ok 200 ∧
    rD + 2 * rD ≤ (HttpClient.request rA rD trace).totalDelay := by
  obtain ⟨m, rfl⟩ : ∃ m, rA = m + 1 + 1 := ⟨rA - 2, by omega⟩
  unfold HttpClient.request
  rw [requestGo_retry_5xx rD trace (m + 1 + 1) (m + 1 + 1) 0 .networkFailure
    503 h0 (by omega) (by omega)]
  rw [requestGo_retry_5xx rD trace (m + 1 + 1) (m + 1) (0 + 1)
    (.httpError 503) 503 h1 (by omega) (by omega)]
  rw [requestGo_success rD trace (m + 1 + 1) m (0 + 1 + 1)
    (.httpError 503) 200 htwo (by omega)]
  refine ⟨rfl, ?_⟩
  simp [pow_succ, pow_zero]
  omega

/-- Witness for C5 at a concrete input: `retryAttempts = 2`, base delay 1000,
and the trace 503, 503, 200. -/
theorem retry_twice_503_then_success_witness :
    (2:Nat) ≤ 2 ∧
    (fun i : Nat => if i < 2 then AttemptOutcome.response 503
      else AttemptOutcome.response 200) 0 = AttemptOutcome.response 503 ∧
    (fun i : Nat => if i < 2 then AttemptOutcome.response 503
      else AttemptOutcome.response 200) 1 = AttemptOutcome.response 503 ∧
    (fun i : Nat => if i < 2 then AttemptOutcome.response 503
      else AttemptOutcome.response 200) 2 = AttemptOutcome.response 200 ∧
    (HttpClient.request 2 1000
      (fun i => if i < 2 then AttemptOutcome.response 503
        else AttemptOutcome.response 200)).result = ReqResult.ok 200 ∧
    1000 + 2 * 1000 ≤ (HttpClient.request 2 1000
      (fun i => if i < 2 then AttemptOutcome.response 503
        else AttemptOutcome.response 200)).totalDelay := by
  have h := retry_twice_503_then_success 2 1000
    (fun i => if i < 2 then AttemptOutcome.response 503
      else AttemptOutcome.response 200) (by decide) rfl rfl rfl
  exact ⟨by decide, rfl, rfl, rfl, h.1, h.2⟩

/-! ## Claim theorems: post headers, gallery deletion, uploads, logout -/

/-- C3: evaluation of the code at the failing input.  A `post` carrying
`FormData` with the default empty options object (`config.headers` absent, so
`delete config.headers?.['Content-Type']` is a no-op) still ends up with the
JSON content-type default in the final request headers, because
`HttpClient.request` re-applies `defaultHeaders` when the options carry no
`headers` property.  Only when the caller passes an explicit `headers` object
is the content type actually stripped. -/
theorem formdata_post_keeps_json_content_type :
    HttpClient.requestHeaders
      (HttpClient.postConfig (some PostData.formData) ⟨none, none, none⟩) =
      [("Content-Type", "application/json")] ∧
    ("Content-Type", "application/json") ∈ HttpClient.requestHeaders
      (HttpClient.postConfig (some PostData.formData) ⟨none, none, none⟩) ∧
    HttpClient.requestHeaders
      (HttpClient.postConfig (some PostData.formData)
        ⟨none, some [("Content-Type", "application/json"), ("X-Custom", "1")],
          none⟩) = [("X-Custom", "1")] := by
  refine ⟨rfl, ?_, ?_⟩
  · decide
  · decide

/-- C4: evaluation of the code at the failing input.  Deleting the image with
id `"1"` (confirmed, backend responds ok) does remove the record from both
the backing list and the filtered list, but the request it issues is a direct
`fetch` of `DELETE http://localhost:5001/api/pins/1` — not the
`DELETE /api/images/1` that `ApiService.deleteImage` (the API Service path,
built from `API_CONFIG.endpoints.delete`) would issue. -/
theorem gallery_delete_uses_pins_endpoint :
    (GalleryManager.deleteImage true true
      ⟨[⟨"1"⟩, ⟨"2"⟩], [⟨"1"⟩, ⟨"2"⟩]⟩ ⟨"1"⟩).2 =
      some "http://localhost:5001/api/pins/1" ∧
    (GalleryManager.deleteImage true true
      ⟨[⟨"1"⟩, ⟨"2"⟩], [⟨"1"⟩, ⟨"2"⟩]⟩ ⟨"1"⟩).1 =
      ⟨[⟨"2"⟩], [⟨"2"⟩]⟩ ∧
    ApiService.deleteImageUrl "1" = "http://localhost:5001/api/images/1" ∧
    (GalleryManager.deleteImage true true
      ⟨[⟨"1"⟩, ⟨"2"⟩], [⟨"1"⟩, ⟨"2"⟩]⟩ ⟨"1"⟩).2 ≠
      some (ApiService.deleteImageUrl "1") := by
  refine ⟨?_, ?_, ?_, ?_⟩ <;> decide

/-- C8: in a queue of three valid files where the second upload fails (with a
genuine failure whose message does not mention `fetch`) and the others
succeed, the items are processed sequentially, the second failure does not
abort the batch, the third item is still attempted and completes, and the
final statuses are `[completed, error, completed]` with the failed item
carrying the failure message. -/
theorem upload_batch_survives_middle_failure (a b c : UploadItem) (m : String)
    (hm : jsIncludes ("Upload failed: " ++ m) "fetch" = false) :
    UploadManager.startUpload
      [(a, NetOutcome.okResp), (b, NetOutcome.httpFail m),
        (c, NetOutcome.okResp)] =
      ([⟨a.id, .completed, 100, a.errorMsg⟩,
        ⟨b.id, .error, b.progress, some ("Upload failed: " ++ m)⟩,
        ⟨c.id, .completed, 100, c.errorMsg⟩], 2, 1) ∧
    (UploadManager.startUpload
      [(a, NetOutcome.okResp), (b, NetOutcome.httpFail m),
        (c, NetOutcome.okResp)]).1.map UploadItem.status =
      [UploadStatus.completed, UploadStatus.error, UploadStatus.completed] := by
  have heq : UploadManager.startUpload
      [(a, NetOutcome.okResp), (b, NetOutcome.httpFail m),
        (c, NetOutcome.okResp)] =
      ([⟨a.id, .completed, 100, a.errorMsg⟩,
        ⟨b.id, .error, b.progress, some ("Upload failed: " ++ m)⟩,
        ⟨c.id, .completed, 100, c.errorMsg⟩], 2, 1) := by
    simp [UploadManager.startUpload, UploadManager.uploadFile, hm]
  refine ⟨heq, ?_⟩
  rw [heq]
  rfl

/-- Witness for C8 at a concrete input: three pending items, the middle one
failing with statusText `Internal Server Error`. -/
theorem upload_batch_survives_middle_failure_witness :
    jsIncludes ("Upload failed: " ++ "Internal Server Error") "fetch" =
      false ∧
    UploadManager.startUpload
      [(⟨1, .pending, 0, none⟩, NetOutcome.okResp),
        (⟨2, .pending, 0, none⟩, NetOutcome.httpFail "Internal Server Error"),
        (⟨3, .pending, 0, none⟩, NetOutcome.okResp)] =
      ([⟨1, .completed, 100, none⟩,
        ⟨2, .error, 0, some ("Upload failed: " ++ "Internal Server Error")⟩,
        ⟨3, .completed, 100, none⟩], 2, 1) := by
  have h := upload_batch_survives_middle_failure ⟨1, .pending, 0, none⟩
    ⟨2, .pending, 0, none⟩ ⟨3, .pending, 0, none⟩ "Internal Server Error"
    (by decide)
  exact ⟨by decide, h.1⟩

/-- C10: for every initial token-store state (with the localStorage `Map`
invariant of distinct keys), `ApiService.logout` resolves normally — the
network error, if any, is caught and never propagated — and the stored auth
token is removed by the `finally` block, while every other persisted key is
left untouched. -/
theorem logout_always_clears_token (netFails : Bool)
    (ls : List (String × String)) (hnd : keysNodup ls) :
    (ApiService.logout netFails ls).1 = Except.ok () ∧
    mapGet ApiService.authTokenKey (ApiService.logout netFails ls).2 = none ∧
    (∀ k, k ≠ ApiService.authTokenKey →
      mapGet k (ApiService.logout netFails ls).2 = mapGet k ls) := by
  refine ⟨?_, ?_, ?_⟩
  · unfold ApiService.logout
    cases netFails <;> rfl
  · unfold ApiService.logout ApiService.removeAuthToken
    exact mapGet_mapDelete_self _ ls hnd
  · intro k hk
    unfold ApiService.logout ApiService.removeAuthToken
    exact mapGet_mapDelete_ne k _ hk ls

/-- Witness for C10 at a concrete input: a failing logout call over a store
holding the auth token and a theme key removes the token, keeps the theme,
and surfaces no error. -/
theorem logout_always_clears_token_witness :
    keysNodup [(("carousel-auth-token" : String), "tok"),
      ("carousel-theme", "dark")] ∧
    (ApiService.logout true [("carousel-auth-token", "tok"),
      ("carousel-theme", "dark")]).1 = Except.ok () ∧
    mapGet ApiService.authTokenKey
      (ApiService.logout true [("carousel-auth-token", "tok"),
        ("carousel-theme", "dark")]).2 = none ∧
    mapGet "carousel-theme"
      (ApiService.logout true [("carousel-auth-token", "tok"),
        ("carousel-theme", "dark")]).2 =
      mapGet "carousel-theme" [("carousel-auth-token", "tok"),
        ("carousel-theme", "dark")] := by
  have hnd : keysNodup [(("carousel-auth-token" : String), "tok"),
      ("carousel-theme", "dark")] := by
    unfold keysNodup
    decide
  have h := logout_always_clears_token true
    [("carousel-auth-token", "tok"), ("carousel-theme", "dark")] hnd
  exact ⟨hnd, h.1, h.2.1, h.2.2 "carousel-theme" (by decide)⟩
